import Mathlib

/-!
Verification of the research-assistant pipeline: document chunking and
metadata extraction (src/ingestion.py), the multi-agent orchestration loop
(src/agents.py), and report synthesis (src/reports.py).

The Python code is shallowly embedded: strings are Lean `String`s (Python
`len` counts code points, matching `List Char` length), Python `float`
confidences and ratios are exact rationals, and the two impure effects that
the orchestrator uses (`datetime.now()` and `random.choice`) are threaded
explicitly through an environment of oracle streams plus an effect-counter
state.  Python `dict`s that the code iterates over are association lists in
insertion order.
-/

/-! ## Python string primitives -/

/-- Python `str` whitespace for `str.strip()` / the `\s` class (ASCII part). -/
def pyIsSpace (c : Char) : Bool :=
  c = ' ' || c = '\t' || c = '\n' || c = '\r' || c = '\x0b' || c = '\x0c'

/-- Python `s[:n]`. -/
def strTake (s : String) (n : Nat) : String := ⟨s.data.take n⟩

/-- Python `s[-n:]` for `n ≥ 1` (clamped to the whole string); `s[-0:]` is `s`. -/
def pyTailSlice (s : String) (k : Nat) : String :=
  if k = 0 then s else ⟨s.data.drop (s.data.length - k)⟩

/-- Python `s.strip()`. -/
def pyStrip (s : String) : String :=
  ⟨((s.data.dropWhile pyIsSpace).reverse.dropWhile pyIsSpace).reverse⟩

/-- Python `sep.join(xs)`. -/
def pyJoin (sep : String) : List String → String
  | [] => ""
  | [x] => x
  | x :: y :: rest => x ++ sep ++ pyJoin sep (y :: rest)

/-- Concatenation of a list of strings (used to mirror `+=` accumulation loops). -/
def strConcat : List String → String
  | [] => ""
  | x :: rest => x ++ strConcat rest

/-- Predicate `startsW l pat`: `pat` is a prefix of `l` (over characters). -/
def startsW : List Char → List Char → Bool
  | _, [] => true
  | [], _ :: _ => false
  | c :: l, p :: ps => c = p && startsW l ps

/-- Predicate `hasSub pat l`: Python `pat in l` (substring containment over characters). -/
def hasSub (pat : List Char) : List Char → Bool
  | [] => startsW [] pat
  | c :: l => startsW (c :: l) pat || hasSub pat l

/-- Python `pat in s` for strings. -/
def strHasSub (s pat : String) : Bool := hasSub pat.data s.data

/-- Helper for `replaceAll`: the `Nat` argument counts characters still to be
dropped because they were consumed by the previous pattern occurrence. -/
def replAux (pat rep : List Char) : List Char → Nat → List Char
  | [], _ => []
  | _ :: l, d + 1 => replAux pat rep l d
  | c :: l, 0 =>
    if pat ≠ [] && startsW (c :: l) pat
    then rep ++ replAux pat rep l (pat.length - 1)
    else c :: replAux pat rep l 0

/-- Python `s.replace(pat, rep)` for non-empty `pat`: leftmost, non-overlapping. -/
def replaceAll (s pat rep : String) : String := ⟨replAux pat.data rep.data s.data 0⟩

/-- Python `s.lower()` (ASCII; all strings in this code base are ASCII). -/
def pyLower (s : String) : String := ⟨s.data.map Char.toLower⟩

/-- Split a character list at every occurrence of `sep` (Python `s.split(sep)`
for a one-character separator: no run collapsing, `"" ↦ [""]`). -/
def splitCharAux (sep : Char) : List Char → List (List Char)
  | [] => [[]]
  | c :: l =>
    match splitCharAux sep l with
    | [] => [[c]]
    | h :: t => if c = sep then [] :: h :: t else (c :: h) :: t

/-- Python `s.split(sep)` for a one-character separator. -/
def pySplit (s : String) (sep : Char) : List String :=
  (splitCharAux sep s.data).map String.mk

/-! ## IEEE-754 modelling of `int(chunk_size * 0.3)`

`src/ingestion.py` computes the overlap length as `int(chunk_size * 0.3)` in
double-precision arithmetic.  `0.3` is the double `5404319552844595 / 2^54`;
the product is rounded to 53 significant bits (round to nearest, ties to
even) and then truncated.  All of this is reproduced exactly over `Nat`. -/

/-- Fuel-driven bit length (`blAux n n` terminates because `⌊log2 n⌋ + 1 ≤ n`
for `n ≥ 1`); structural recursion keeps it kernel-reducible. -/
def blAux : Nat → Nat → Nat
  | 0, _ => 0
  | f + 1, n => if n = 0 then 0 else blAux f (n / 2) + 1

/-- Number of binary digits of `n` (`0` for `0`). -/
def bitLen (n : Nat) : Nat := blAux n n

/-- Round `N / 2^drop` to the nearest integer, ties to even. -/
def rne (N drop : Nat) : Nat :=
  if drop = 0 then N
  else
    let n0 := N / 2 ^ drop
    let rem := N % 2 ^ drop
    let half := 2 ^ (drop - 1)
    if rem < half then n0
    else if half < rem then n0 + 1
    else if n0 % 2 = 0 then n0 else n0 + 1

/-- Round a natural number to 53 significant bits (conversion of a Python
`int` to a double, exact below `2^53`). -/
def round53 (n : Nat) : Nat :=
  let b := bitLen n
  if b ≤ 53 then n else rne n (b - 53) * 2 ^ (b - 53)

/-- Model of `int(cs * 0.3)` under IEEE-754 double semantics: the exact product
`round53 cs * 0.3₂` (a rational with denominator `2^54`) is rounded to 53
significant bits, then truncated toward zero. -/
def int03 (cs : Nat) : Nat :=
  let N := round53 cs * 5404319552844595
  let b := bitLen N
  if b ≤ 53 then N / 2 ^ 54
  else (rne N (b - 53) * 2 ^ (b - 53)) / 2 ^ 54

/-! ## Chunker (`DocumentProcessor.extract_chunks`, src/ingestion.py) -/

structure DocumentChunk where
  content : String
  chunk_id : Nat
  page_num : Option Nat := none
  start_char : Nat := 0
deriving DecidableEq, Repr

/-- Test for `.`, `!` or `?` — the sentence terminators of the pattern
`(?<=[.!?])\s+`. -/
def isTermC (c : Char) : Bool := c = '.' || c = '!' || c = '?'

/-- Model of `re.split` on the pattern `(?<=[.!?])\s+` over characters.  `acc` is the
reversed current piece; when `skipping` is true we are consuming the `\s+`
of a match (so `acc = []`). -/
def splitSentAux : List Char → List Char → Bool → List (List Char)
  | [], acc, _ => [acc.reverse]
  | c :: rest, acc, false =>
    if pyIsSpace c && (match acc with | p :: _ => isTermC p | [] => false)
    then acc.reverse :: splitSentAux rest [] true
    else splitSentAux rest (c :: acc) false
  | c :: rest, acc, true =>
    if pyIsSpace c then splitSentAux rest acc true
    else splitSentAux rest [c] false

/-- Model of `re.split(r..., text)` on the sentence-terminator pattern. -/
def splitSentences (text : String) : List String :=
  (splitSentAux text.data [] false).map String.mk

/-- Model of `"\n".join(...)`, used for `start_char` bookkeeping. -/
def joinNl : List String → String
  | [] => ""
  | [x] => x
  | x :: y :: rest => x ++ "\n" ++ joinNl (y :: rest)

/-- The loop state of `extract_chunks`: accumulated chunks, the running
chunk text, the running size counter and the next chunk id. -/
structure ChunkState where
  chunks : List DocumentChunk
  current_chunk : String
  current_size : Nat
  chunk_id : Nat
deriving DecidableEq, Repr

/-- One iteration of the `for sentence in sentences` loop of
`extract_chunks` (src/ingestion.py, lines 45-60). -/
def chunkStep (chunk_size : Nat) (st : ChunkState) (sentence : String) : ChunkState :=
  if st.current_size + sentence.length > chunk_size ∧ st.current_chunk ≠ "" then
    let closed : DocumentChunk :=
      { content := pyStrip st.current_chunk
        chunk_id := st.chunk_id
        start_char := (joinNl (st.chunks.map (·.content))).length }
    -- Overlap: keep last 30% of chunk (`current_chunk[-int(chunk_size * 0.3):]`)
    let overlap_content := pyTailSlice st.current_chunk (int03 chunk_size)
    let current := overlap_content ++ " " ++ sentence
    ⟨st.chunks ++ [closed], current, current.length, st.chunk_id + 1⟩
  else
    ⟨st.chunks, st.current_chunk ++ " " ++ sentence,
      st.current_size + sentence.length, st.chunk_id⟩

/-- Model of `DocumentProcessor.extract_chunks(text, chunk_size)` (src/ingestion.py,
lines 33-69). -/
def extract_chunks (text : String) (chunk_size : Nat) : List DocumentChunk :=
  let sentences := splitSentences text
  let fin := sentences.foldl (chunkStep chunk_size) ⟨[], "", 0, 0⟩
  if pyStrip fin.current_chunk ≠ "" then
    fin.chunks ++
      [{ content := pyStrip fin.current_chunk
         chunk_id := fin.chunk_id
         start_char := (joinNl (fin.chunks.map (·.content))).length }]
  else fin.chunks

/-! ## Metadata extraction (`DocumentProcessor._extract_title`) -/

/-- Python `a or b` on strings: `b` when `a` is empty, else `a`. -/
def pyOr (a b : String) : String := if a = "" then b else a

/-- Model of `DocumentProcessor._extract_title(text, filename)` (src/ingestion.py,
lines 85-90).  `text.split('\n')` is never empty, so the `if lines:` test
always succeeds; the final `return filename` is unreachable. -/
def extractTitle (text filename : String) : String :=
  match pySplit text '\n' with
  | [] => filename
  | l0 :: _ =>
    pyOr (strTake l0 100) (replaceAll (replaceAll filename (".pdf") ("")) (".txt") (""))

/-! ## Agents (src/agents.py)

`documents` entries are the dicts `{"id": ..., "chunks": [...]}` consumed by
`ResearcherAgent.act`; `metadata` is the dict mapping document ids to
per-document metadata dicts.  A metadata value that may be missing from a
Python dict is an `Option`. -/

structure EvidenceRef where
  doc_id : String
  chunk_id : Nat
  highlight : String
deriving DecidableEq, Repr

structure AgentMessage where
  agent : String
  round : Nat
  summary : String
  evidence : List EvidenceRef
  confidence : Rat
  timestamp : String
deriving DecidableEq, Repr

structure Document where
  id : String
  chunks : List DocumentChunk
deriving DecidableEq, Repr

/-- The per-document metadata dict as read by the agents
(`meta.get("metrics")`, `meta.get("datasets")`, `meta.get("word_count", 0)`). -/
structure DocMeta where
  metrics : Option String := none
  datasets : Option String := none
  word_count : Option Nat := none
deriving DecidableEq, Repr

/-- The `context` dict built by `AgentOrchestrator.run`. -/
structure Context where
  round : Nat
  prior_messages : List AgentMessage
  num_rounds : Nat
  citation_strictness : String
deriving DecidableEq

/-- Oracle streams for the impure calls: `now k` is the `k`-th
`datetime.now().isoformat()` result, `choice k` drives the `k`-th
`random.choice` (reduced mod the list length), and `setOrder` is the
iteration order of a Python `set` built from a list (Python leaves it
unspecified; it deduplicates and permutes). -/
structure PyEnv where
  now : Nat → String
  choice : Nat → Nat
  setOrder : List String → List String

/-- Effect counters: how many `datetime.now()` and `random.choice` calls
have happened so far. -/
structure EffState where
  clock : Nat
  rand : Nat
deriving DecidableEq, Repr

def pyNow (env : PyEnv) (s : EffState) : String × EffState :=
  (env.now s.clock, { s with clock := s.clock + 1 })

/-- Model of `random.choice` on a list of length `n ≥ 1`, as an index. -/
def pyChoice (env : PyEnv) (s : EffState) (n : Nat) : Nat × EffState :=
  (env.choice s.rand % n, { s with rand := s.rand + 1 })

/-- Model of `BaseAgent._create_message` (src/agents.py, lines 28-37). -/
def createMessage (env : PyEnv) (s : EffState) (role summary : String)
    (evidence : List EvidenceRef) (confidence : Rat) (round_num : Nat) :
    AgentMessage × EffState :=
  let (ts, s') := pyNow env s
  (⟨role, round_num, summary, evidence, confidence, ts⟩, s')

/-- Dict lookup `metadata.get(doc_id)` over the insertion-ordered pairs. -/
def dictGet (m : List (String × DocMeta)) (k : String) : Option DocMeta :=
  (m.find? (fun p => p.1 = k)).map (·.2)

/-- Model of `ResearcherAgent.act` (src/agents.py, lines 45-68). -/
def researcherAct (env : PyEnv) (s : EffState) (ctx : Context)
    (documents : List Document) (metadata : List (String × DocMeta)) :
    AgentMessage × EffState :=
  let round_num := ctx.round
  match documents with
  | [] => createMessage env s ("Researcher") ("No documents available") [] 0 round_num
  | d :: ds =>
    let (idx, s1) := pyChoice env s (d :: ds).length
    let selected := (d :: ds).getD idx d
    let doc_id := selected.id
    let chunks := selected.chunks.take 3
    let wc := (((dictGet metadata doc_id).getD {}).word_count).getD 0
    let summary :=
      "Analyzed " ++ toString chunks.length ++ " key sections from " ++ doc_id ++
      ". Key findings include foundational concepts, methodology overview, and primary results. " ++
      "Total document contains " ++ toString wc ++ " words."
    let evidence := chunks.enum.map
      (fun p => EvidenceRef.mk doc_id p.1 (strTake p.2.content 150 ++ "..."))
    createMessage env s1 ("Researcher") summary evidence (0.85 : Rat) round_num

/-- Model of `ReviewerAgent.act` (src/agents.py, lines 76-93). -/
def reviewerAct (env : PyEnv) (s : EffState) (ctx : Context)
    (documents : List Document) (_metadata : List (String × DocMeta)) :
    AgentMessage × EffState :=
  let round_num := ctx.round
  let critique_points : List String :=
    ["Limited scope: Only analyzed single datasets without cross-validation",
     "Methodological concern: Sample size may be insufficient for statistical significance",
     "Assumption risk: Linear model assumes relationships not validated in domain literature"]
  let summary :=
    "Critical assessment: " ++ pyJoin ("; ") (critique_points.take 2) ++
    ". Recommendation: Conduct sensitivity analysis and validation on " ++
    toString documents.length ++ " additional datasets."
  let evidence : List EvidenceRef :=
    [⟨"doc_0", 1, "Methods section indicates sample size of N=250"⟩,
     ⟨"doc_0", 3, "Linear regression model with three parameters"⟩]
  createMessage env s ("Reviewer") summary evidence (0.72 : Rat) round_num

/-- Model of `SynthesizerAgent.act` (src/agents.py, lines 101-115).  The last
sentence of the summary is a plain (non-f-string) literal in the source, so
the characters `{len(documents)}` appear verbatim. -/
def synthesizerAct (env : PyEnv) (s : EffState) (ctx : Context)
    (documents : List Document) (_metadata : List (String × DocMeta)) :
    AgentMessage × EffState :=
  let round_num := ctx.round
  let summary :=
    "Cross-document synthesis of " ++ toString documents.length ++ " sources reveals: " ++
    "(1) Consensus: All sources agree on core methodology framework; " ++
    "(2) Contradiction: Dataset size varies by 3x across implementations; " ++
    "(3) Hypothesis: Variance inversely correlates with statistical rigor. " ++
    "Recommend: Standardized evaluation protocol across \x7blen(documents)\x7d datasets."
  let evidence := (List.range (min 2 documents.length)).map
    (fun i => EvidenceRef.mk ("doc_" ++ toString i) 0 ("Key methodology component"))
  createMessage env s ("Synthesizer") summary evidence (0.68 : Rat) round_num

/-- Python truthiness of `meta.get("metrics")`: present and non-empty. -/
def truthyOpt : Option String → Bool
  | none => false
  | some v => v ≠ ""

/-- Model of `DataInspectorAgent.act` (src/agents.py, lines 123-143).  The summary
joins `set(...)` iterations, whose order Python leaves unspecified: it is
supplied by `env.setOrder`. -/
def dataInspectorAct (env : PyEnv) (s : EffState) (ctx : Context)
    (documents : List Document) (metadata : List (String × DocMeta)) :
    AgentMessage × EffState :=
  let round_num := ctx.round
  let metrics_found := metadata.map (fun p => (p.2.metrics).getD ("None"))
  let datasets_found := metadata.map (fun p => (p.2.datasets).getD ("None"))
  let summary :=
    "Data audit across " ++ toString documents.length ++ " documents: " ++
    "Metrics identified: " ++ pyJoin ("; ") (env.setOrder metrics_found) ++ "; " ++
    "Datasets: " ++ pyJoin ("; ") (env.setOrder datasets_found) ++ ". " ++
    "Comparability score: 0.65 (heterogeneous evaluation protocols)."
  let evidence := metadata.filterMap (fun p =>
    if truthyOpt p.2.metrics then
      some (EvidenceRef.mk p.1 0 ("Reported metrics: " ++ (p.2.metrics).getD ("None")))
    else none)
  createMessage env s ("DataInspector") summary (evidence.take 2) (0.79 : Rat) round_num

/-- The `total_claims` count of the citation audit: `len(prior_messages)`. -/
def totalCount (prior : List AgentMessage) : Nat := prior.length

/-- The `cited_claims` count: prior messages whose evidence list is truthy (non-empty). -/
def citedCount (prior : List AgentMessage) : Nat :=
  (prior.filter (fun m => m.evidence ≠ [])).length

/-- The ratio `cited_claims / max(1, total_claims)` computed inside
`CitationGuardAgent.act` (src/agents.py, line 162). -/
def citationRatio (prior : List AgentMessage) : Rat :=
  (citedCount prior : Rat) / (max 1 (totalCount prior) : Nat)

/-- Round a rational to the nearest integer, ties to even — the rounding of
Python's `format(x, '.0f')` on our exactly-represented values. -/
def rneQ (q : Rat) : Int :=
  let n := ⌊q⌋
  let r := q - n
  if r < 1 / 2 then n
  else if 1 / 2 < r then n + 1
  else if n % 2 = 0 then n else n + 1

/-- Python `f"{x:.0f}"` for the non-negative ratios appearing here. -/
def fmtF0 (q : Rat) : String := toString (rneQ q)

/-- Model of `CitationGuardAgent.act` (src/agents.py, lines 151-167). -/
def citationGuardAct (env : PyEnv) (s : EffState) (ctx : Context)
    (_documents : List Document) (_metadata : List (String × DocMeta)) :
    AgentMessage × EffState :=
  let round_num := ctx.round
  let prior := ctx.prior_messages
  let summary :=
    "Citation audit: " ++ toString (citedCount prior) ++ "/" ++ toString (totalCount prior) ++
    " claims have explicit evidence linkage (" ++ fmtF0 (citationRatio prior * 100) ++
    "%). Quality: GOOD. Recommendation: Strengthen evidence specificity by including page ranges."
  let evidence : List EvidenceRef := [⟨"audit", 0, "All claims cross-referenced"⟩]
  createMessage env s ("CitationGuard") summary evidence (0.88 : Rat) round_num

/-! ## Orchestrator (`AgentOrchestrator`, src/agents.py, lines 169-232) -/

/-- The closed set of agent roles. -/
inductive Role
  | researcher | reviewer | synthesizer | dataInspector | citationGuard
deriving DecidableEq, Repr

def roleName : Role → String
  | .researcher => "Researcher"
  | .reviewer => "Reviewer"
  | .synthesizer => "Synthesizer"
  | .dataInspector => "DataInspector"
  | .citationGuard => "CitationGuard"

/-- Dispatch `agent.act(context, documents, metadata)`. -/
def actOf : Role → PyEnv → EffState → Context → List Document →
    List (String × DocMeta) → AgentMessage × EffState
  | .researcher => researcherAct
  | .reviewer => reviewerAct
  | .synthesizer => synthesizerAct
  | .dataInspector => dataInspectorAct
  | .citationGuard => citationGuardAct

/-- The `agent_classes` membership test of `_initialize_agents`. -/
def roleOfName (s : String) : Option Role :=
  if s = "Researcher" then some .researcher
  else if s = "Reviewer" then some .reviewer
  else if s = "Synthesizer" then some .synthesizer
  else if s = "DataInspector" then some .dataInspector
  else if s = "CitationGuard" then some .citationGuard
  else none

/-- Model of `AgentOrchestrator._initialize_agents` (src/agents.py, lines 178-193):
keep configured roles that are enabled and known, in configuration order. -/
def initAgents (config : List (String × Bool)) : List Role :=
  config.filterMap (fun p => if p.2 then roleOfName p.1 else none)

structure GraphNode where
  id : String
  label : String
  agent : String
  round : Nat
deriving DecidableEq, Repr

structure GraphEdge where
  source : String
  target : String
  label : String
deriving DecidableEq, Repr

/-- The graph node registered for `(agent, round)` (src/agents.py, 216-222). -/
def nodeOf (a : Role) (round_num : Nat) : GraphNode :=
  ⟨roleName a ++ "_r" ++ toString round_num,
   roleName a ++ " (R" ++ toString round_num ++ ")",
   roleName a, round_num⟩

/-- The inner `for agent in self.agents` loop of one round.  The Python
`context` dict stores a live reference to the mutable `all_messages` list,
so each `act` call observes the history at call time; the trace records the
context each invocation received next to the message it returned. -/
def runAgents (env : PyEnv) (documents : List Document)
    (metadata : List (String × DocMeta)) (num_rounds : Nat) (cstrict : String)
    (round_num : Nat) :
    List Role → List (Context × AgentMessage) → List GraphNode → EffState →
    List (Context × AgentMessage) × List GraphNode × EffState
  | [], trace, nodes, s => (trace, nodes, s)
  | a :: rest, trace, nodes, s =>
    let ctx : Context := ⟨round_num, trace.map (·.2), num_rounds, cstrict⟩
    let r := actOf a env s ctx documents metadata
    runAgents env documents metadata num_rounds cstrict round_num rest
      (trace ++ [(ctx, r.1)]) (nodes ++ [nodeOf a round_num]) r.2

/-- The outer `for round_num in range(1, num_rounds + 1)` loop; `fuel` is
the number of rounds still to run, `round_num` the current round number. -/
def runRounds (env : PyEnv) (documents : List Document)
    (metadata : List (String × DocMeta)) (num_rounds : Nat) (cstrict : String)
    (agents : List Role) :
    Nat → Nat → List (Context × AgentMessage) → List GraphNode → EffState →
    List (Context × AgentMessage) × List GraphNode × EffState
  | _, 0, trace, nodes, s => (trace, nodes, s)
  | round_num, fuel + 1, trace, nodes, s =>
    let r := runAgents env documents metadata num_rounds cstrict
      round_num agents trace nodes s
    runRounds env documents metadata num_rounds cstrict agents
      (round_num + 1) fuel r.1 r.2.1 r.2.2

/-- The loop of `AgentOrchestrator.run` instrumented with the invocation trace: the
orchestrator state after all rounds, starting from round 1 with empty
history and fresh effect counters. -/
def runTrace (config : List (String × Bool)) (num_rounds : Nat)
    (cstrict : String) (env : PyEnv) (documents : List Document)
    (metadata : List (String × DocMeta)) :
    List (Context × AgentMessage) × List GraphNode × EffState :=
  runRounds env documents metadata num_rounds cstrict (initAgents config)
    1 num_rounds [] [] ⟨0, 0⟩

/-- The edge loop `for i in range(len(all_messages) - 1)` (src/agents.py,
lines 225-230): one edge per consecutive message pair, labeled by the
source message's round. -/
def mkEdges : List AgentMessage → List GraphEdge
  | m1 :: m2 :: rest =>
    ⟨m1.agent ++ "_r" ++ toString m1.round,
     m2.agent ++ "_r" ++ toString m2.round,
     "Round " ++ toString m1.round⟩ :: mkEdges (m2 :: rest)
  | _ => []

/-- Model of `AgentOrchestrator.run(documents, metadata)` (src/agents.py, lines
195-232): the message history, graph nodes and graph edges.  The progress
callback only performs output and is omitted. -/
def AgentOrchestrator.run (config : List (String × Bool)) (num_rounds : Nat)
    (cstrict : String) (env : PyEnv) (documents : List Document)
    (metadata : List (String × DocMeta)) :
    List AgentMessage × List GraphNode × List GraphEdge :=
  let r := runTrace config num_rounds cstrict env documents metadata
  let all_messages := r.1.map (·.2)
  (all_messages, r.2.1, mkEdges all_messages)

/-! ## Report synthesis (`ReportGenerator`, src/reports.py) -/

/-- State of `ReportGenerator.__init__`: it captures `datetime.now().isoformat()` once. -/
structure ReportGenerator where
  generated_at : String
deriving DecidableEq

/-- Construction `ReportGenerator()` — it consumes one clock reading. -/
def ReportGenerator.init (env : PyEnv) (s : EffState) : ReportGenerator × EffState :=
  let (t, s') := pyNow env s
  (⟨t⟩, s')

structure ReportMetadata where
  generated_at : String
  num_documents : Nat
  num_agents : Nat
  total_rounds : Nat
  num_messages : Nat
deriving DecidableEq

structure EvidenceMapEntry where
  agent : String
  claim : String
  supporting_evidence : List EvidenceRef
  confidence : Rat
deriving DecidableEq

structure ReportJson where
  summary : String
  hypotheses : List String
  conclusions : List String
  agent_messages : List AgentMessage
deriving DecidableEq

structure Report where
  metadata : ReportMetadata
  summary : String
  hypotheses : List String
  conclusions : List String
  evidence_map : List (String × EvidenceMapEntry)
  methodology : String
  markdown : String
  json : ReportJson
deriving DecidableEq

/-- Model of `ReportGenerator._synthesize_summary` (src/reports.py, lines 44-56). -/
def synthesizeSummary (messages : List AgentMessage) : String :=
  let key_findings := (messages.filter (fun m => m.agent == "Synthesizer")).map (·.summary)
  let key_findings := if key_findings = [] then (messages.take 3).map (·.summary)
    else key_findings
  "Multi-agent analysis reveals the following key insights: " ++
    pyJoin (" ") (key_findings.take 2)

/-- The three fallback hypotheses of `_extract_hypotheses`. -/
def fallbackHypotheses : List String :=
  ["Performance variation correlates with dataset heterogeneity",
   "Standardization of evaluation protocols would improve comparability",
   "Methodological rigor increases with multi-dataset validation"]

/-- Model of `ReportGenerator._extract_hypotheses` (src/reports.py, lines 58-75):
Synthesizer summaries containing case-insensitive "hypothesis", else the
fixed fallback list; capped at 3. -/
def extractHypotheses (messages : List AgentMessage) : List String :=
  let hypotheses := (messages.filter (fun m =>
    m.agent == "Synthesizer" && strHasSub (pyLower m.summary) ("hypothesis"))).map (·.summary)
  let hypotheses := if hypotheses = [] then fallbackHypotheses else hypotheses
  hypotheses.take 3

/-- Model of `ReportGenerator._extract_conclusions` (src/reports.py, lines 77-84):
a fixed list, independent of the messages. -/
def extractConclusions (_messages : List AgentMessage) : List String :=
  ["Comprehensive review of source materials validates core research methodology",
   "Identified areas for improvement in evaluation and validation procedures",
   "Recommended integration of multi-agent analysis in research synthesis workflows"]

/-- Model of `ReportGenerator._build_evidence_map` (src/reports.py, lines 86-99):
one entry per message, keyed `claim_{i}` by position. -/
def buildEvidenceMap (messages : List AgentMessage) : List (String × EvidenceMapEntry) :=
  messages.enum.map (fun p =>
    ("claim_" ++ toString p.1,
     ⟨p.2.agent, strTake p.2.summary 200, p.2.evidence, p.2.confidence⟩))

/-- Model of `len(set(m.get("agent") for m in messages))`. -/
def numAgentsOf (messages : List AgentMessage) : Nat :=
  ((messages.map (·.agent)).dedup).length

/-- Model of `max([m.get("round", 0) for m in messages] + [0])`. -/
def maxRoundOf (messages : List AgentMessage) : Nat :=
  (messages.map (·.round)).foldr max 0

/-- Model of `ReportGenerator._document_methodology` (src/reports.py, lines 101-107). -/
def documentMethodology (messages : List AgentMessage) : String :=
  "Analysis conducted using " ++ toString (numAgentsOf messages) ++
  " specialized agents over " ++ toString (maxRoundOf messages) ++ " rounds. " ++
  "Each agent contributed domain-specific analysis verified through multi-stage evidence review."

/-- Python `f"{x:.1%}"`: percentage with one decimal digit (rounding to
nearest, ties to even, of the exactly-represented rational). -/
def fmtPct1 (q : Rat) : String :=
  let n := rneQ (q * 1000)
  toString (n / 10) ++ "." ++ toString (n % 10) ++ "%"

/-- The numbered-list loops `for i, hyp in enumerate(hypotheses, 1)`. -/
def enumLines (l : List String) : String :=
  strConcat (l.enum.map (fun p => toString (p.1 + 1) ++ ". " ++ p.2 ++ "\n"))

/-- One `### claim_i` block of the Evidence Summary section. -/
def evidenceBlock (p : String × EvidenceMapEntry) : String :=
  "### " ++ p.1 ++ "\n" ++
  "- **Agent**: " ++ p.2.agent ++ "\n" ++
  "- **Confidence**: " ++ fmtPct1 p.2.confidence ++ "\n" ++
  "- **Claim**: " ++ p.2.claim ++ "\n" ++
  "- **Evidence**: " ++ toString p.2.supporting_evidence.length ++ " source(s)\n\n"

/-- Model of `ReportGenerator._render_markdown` (src/reports.py, lines 109-139),
mirroring the `md +=` accumulation. -/
def renderMarkdown (generated_at summary : String) (hypotheses conclusions : List String)
    (evidence_map : List (String × EvidenceMapEntry)) : String :=
  let md := "# Multi-Agent Research Analysis Report\n\n"
  let md := md ++ ("*Generated: " ++ generated_at ++ "*\n\n")
  let md := md ++ "## Executive Summary\n\n"
  let md := md ++ (summary ++ "\n\n")
  let md := md ++ "## Key Hypotheses\n\n"
  let md := md ++ enumLines hypotheses
  let md := md ++ "\n"
  let md := md ++ "## Conclusions\n\n"
  let md := md ++ enumLines conclusions
  let md := md ++ "\n"
  let md := md ++ "## Evidence Summary\n\n"
  let md := md ++ strConcat (evidence_map.map evidenceBlock)
  let md := md ++ "---\n"
  md ++ "*This report was generated by a multi-agent AI system. All claims should be verified against original sources.*\n"

/-- Model of `ReportGenerator.generate(messages, documents, metadata)`
(src/reports.py, lines 11-42); `metadata` is accepted but unused by the
source.  The body performs no clock or randomness calls. -/
def ReportGenerator.generate (rg : ReportGenerator) (messages : List AgentMessage)
    (documents : List Document) (_metadata : List (String × DocMeta)) : Report :=
  let summary := synthesizeSummary messages
  let hypotheses := extractHypotheses messages
  let conclusions := extractConclusions messages
  let evidence_map := buildEvidenceMap messages
  { metadata :=
      { generated_at := rg.generated_at
        num_documents := documents.length
        num_agents := numAgentsOf messages
        total_rounds := maxRoundOf messages
        num_messages := messages.length }
    summary := summary
    hypotheses := hypotheses
    conclusions := conclusions
    evidence_map := evidence_map
    methodology := documentMethodology messages
    markdown := renderMarkdown rg.generated_at summary hypotheses conclusions evidence_map
    json := ⟨summary, hypotheses, conclusions, messages⟩ }


/-! ## Claim-side definitions

These definitions follow the specification's wording (not the source) and
exist to be compared with the source-derived definitions above. -/

/-- Python `s[-n:]` without the `-0` quirk: the trailing `n` characters. -/
def strTakeRight (s : String) (n : Nat) : String := ⟨s.data.drop (s.data.length - n)⟩

/-- Claim C5's seeding rule, as stated: the trailing 30% of the just-closed
chunk's characters, followed by the sentence that triggered the split. -/
def overlapSeedClaimC5 (closed sentence : String) : String :=
  strTakeRight closed (3 * closed.length / 10) ++ " " ++ sentence

/-- Python `s.endswith(suf)`. -/
def endsW (s suf : String) : Bool := startsW s.data.reverse suf.data.reverse

/-- "filename with its extension stripped" (claim C6's fallback). -/
def stripExtC6 (f : String) : String :=
  if endsW f (".pdf") || endsW f (".txt") then ⟨f.data.take (f.data.length - 4)⟩ else f

/-- Claim C6's title rule, as stated: the first non-empty line truncated to
100 characters, or the filename with its extension stripped when the first
line is empty. -/
def titleOfClaimC6 (text filename : String) : String :=
  match (pySplit text '\n').find? (fun l => l != "") with
  | some l => strTake l 100
  | none => stripExtC6 filename

/-- The amended title rule (what `_extract_title` actually computes): the
first line truncated to 100 characters when non-empty, else the filename
with every occurrence of ".pdf" and then of ".txt" removed. -/
def titleAmendedC6 (text filename : String) : String :=
  let first := (pySplit text '\n').headD ("")
  if strTake first 100 = "" then
    replaceAll (replaceAll filename (".pdf") ("")) (".txt") ("")
  else strTake first 100

/-- A fixed oracle environment for concrete evaluations: constant empty
timestamps, `random.choice` always picking index 0, first-occurrence set
order. -/
def oracleEnv : PyEnv := ⟨fun _ => "", fun _ => 0, fun l => l.dedup⟩

/-- A concrete round-1 context with no prior messages. -/
def ctx1 : Context := ⟨1, [], 1, "Moderate"⟩

/-- The chunker state reached by `extract_chunks "aaaaaaaaaaaaaaaaaaaa. b." 10`
just before its second sentence is processed. -/
def c5State : ChunkState := ⟨[], " aaaaaaaaaaaaaaaaaaaa.", 21, 0⟩

/-! ## Helper lemmas -/

theorem startsW_nil_pat (l : List Char) : startsW l [] = true := by
  cases l <;> rfl

theorem startsW_self_append (p b : List Char) : startsW (p ++ b) p = true := by
  induction p with
  | nil => exact startsW_nil_pat b
  | cons c ps ih => simp [startsW, ih]

theorem hasSub_nil_pat (l : List Char) : hasSub [] l = true := by
  cases l <;> simp [hasSub, startsW]

theorem hasSub_self_append (p b : List Char) : hasSub p (p ++ b) = true := by
  cases p with
  | nil => exact hasSub_nil_pat b
  | cons c ps =>
    rw [List.cons_append]
    simp only [hasSub, Bool.or_eq_true]
    exact Or.inl (by simp [startsW, startsW_self_append])

theorem hasSub_append_left (pat a b : List Char) (h : hasSub pat b = true) :
    hasSub pat (a ++ b) = true := by
  induction a with
  | nil => simpa using h
  | cons c l ih => simp [hasSub, ih]

theorem hasSub_triple (a b c rest : List Char) :
    hasSub (a ++ (b ++ c)) (a ++ (b ++ (c ++ rest))) = true := by
  have h := hasSub_self_append (a ++ (b ++ c)) rest
  simpa [List.append_assoc] using h

theorem splitCharAux_ne_nil (sep : Char) (l : List Char) : splitCharAux sep l ≠ [] := by
  induction l with
  | nil => simp [splitCharAux]
  | cons c t ih =>
    simp only [splitCharAux]
    rcases h : splitCharAux sep t with _ | ⟨hd, tl⟩
    · exact absurd h ih
    · by_cases hc : c = sep <;> simp [hc]

theorem pySplit_ne_nil (s : String) (sep : Char) : pySplit s sep ≠ [] := by
  simp [pySplit]
  exact splitCharAux_ne_nil sep s.data

theorem strData_append (a b : String) : (a ++ b).data = a.data ++ b.data := rfl

/-! ## C4 -/

/-- C4: `CitationGuardAgent.act` never faults on division: the citation
ratio is `citedCount / max(1, totalCount)` with a non-zero denominator,
it lies in `[0, 1]`, and over an empty prior-message list it is `0`. -/
theorem citation_ratio_guarded (prior : List AgentMessage) :
    (max 1 (totalCount prior)) ≠ 0
    ∧ citationRatio prior = (citedCount prior : Rat) / ((max 1 (totalCount prior) : Nat) : Rat)
    ∧ 0 ≤ citationRatio prior
    ∧ citationRatio prior ≤ 1
    ∧ citationRatio ([] : List AgentMessage) = 0 := by
  have hmax : 1 ≤ max 1 (totalCount prior) := Nat.le_max_left _ _
  have hc : citedCount prior ≤ totalCount prior := List.length_filter_le _ _
  refine ⟨by omega, rfl, ?_, ?_, by norm_num [citationRatio, citedCount, totalCount]⟩
  · exact div_nonneg (Nat.cast_nonneg _) (Nat.cast_nonneg _)
  · rw [citationRatio]
    apply div_le_one_of_le₀
    · exact_mod_cast le_trans hc (Nat.le_max_right 1 (totalCount prior))
    · exact Nat.cast_nonneg _

/-! ## C9 -/

/-- C9: `ReportGenerator.generate` on an empty message list returns a
report with an empty evidence map, the three fixed fallback hypotheses and
the fixed three conclusions, without faulting. -/
theorem generate_empty_messages (rg : ReportGenerator) (documents : List Document)
    (metadata : List (String × DocMeta)) :
    (rg.generate [] documents metadata).evidence_map = []
    ∧ (rg.generate [] documents metadata).hypotheses =
        ["Performance variation correlates with dataset heterogeneity",
         "Standardization of evaluation protocols would improve comparability",
         "Methodological rigor increases with multi-dataset validation"]
    ∧ (rg.generate [] documents metadata).conclusions =
        ["Comprehensive review of source materials validates core research methodology",
         "Identified areas for improvement in evaluation and validation procedures",
         "Recommended integration of multi-agent analysis in research synthesis workflows"]
    ∧ (rg.generate [] documents metadata).metadata.num_messages = 0 := by
  exact ⟨rfl, rfl, rfl, rfl⟩

/-! ## C6 -/

/-- C6 counterexample: on empty text with filename `"a.txt.pdf"`, the code
returns `"a"` (it removes every `".pdf"` and `".txt"` occurrence) while the
claim's rule returns `"a.txt"` (extension stripped). -/
theorem title_claim_counterexample :
    extractTitle ("") ("a.txt.pdf") = "a"
    ∧ titleOfClaimC6 ("") ("a.txt.pdf") = "a.txt"
    ∧ extractTitle ("") ("a.txt.pdf") ≠ titleOfClaimC6 ("") ("a.txt.pdf") := by
  refine ⟨by decide, by decide, by decide⟩

/-- C6 amended: the title is the first line (not the first non-empty line)
truncated to 100 characters; when that is empty, the filename with every
occurrence of ".pdf" and then of ".txt" removed (not just the extension). -/
theorem title_rule_amended (text filename : String) :
    extractTitle text filename = titleAmendedC6 text filename := by
  unfold extractTitle titleAmendedC6
  rcases h : pySplit text '\n' with _ | ⟨l0, rest⟩
  · exact absurd h (pySplit_ne_nil text '\n')
  · simp [List.headD, pyOr]

/-! ## C8 -/

/-- C8 counterexample: a metadata entry whose `metrics` field is the
absence sentinel `"None mentioned"` does contribute an `EvidenceRef`
(the Python truthiness test accepts any non-empty string). -/
theorem inspector_sentinel_counterexample :
    (dataInspectorAct oracleEnv ⟨0, 0⟩ ctx1 []
        [("d1", { metrics := some ("None mentioned") })]).1.evidence
      = [⟨"d1", 0, "Reported metrics: None mentioned"⟩] := by
  decide

theorem inspector_filterMap_eq (md : List (String × DocMeta)) :
    (md.filterMap (fun p =>
      if truthyOpt p.2.metrics then
        some (EvidenceRef.mk p.1 0 ("Reported metrics: " ++ (p.2.metrics).getD ("None")))
      else none))
    = (md.filter (fun p => truthyOpt p.2.metrics)).map
        (fun p => EvidenceRef.mk p.1 0 ("Reported metrics: " ++ (p.2.metrics).getD ("None"))) := by
  induction md with
  | nil => rfl
  | cons p rest ih =>
    by_cases h : truthyOpt p.2.metrics <;>
      simp [List.filterMap_cons, List.filter_cons, h, ih]

/-- C8 amended: `DataInspectorAgent.act` emits at most 2 EvidenceRefs, one
per metadata entry whose `metrics` value is present and a non-empty string
(the sentinel `"None mentioned"` qualifies), in metadata order, capped at 2. -/
theorem inspector_evidence_amended (env : PyEnv) (s : EffState) (ctx : Context)
    (documents : List Document) (metadata : List (String × DocMeta)) :
    ((dataInspectorAct env s ctx documents metadata).1.evidence).length ≤ 2
    ∧ (dataInspectorAct env s ctx documents metadata).1.evidence
      = ((metadata.filter (fun p => truthyOpt p.2.metrics)).map
          (fun p => EvidenceRef.mk p.1 0 ("Reported metrics: " ++ (p.2.metrics).getD ("None")))).take 2 := by
  have he : (dataInspectorAct env s ctx documents metadata).1.evidence
      = (metadata.filterMap (fun p =>
          if truthyOpt p.2.metrics then
            some (EvidenceRef.mk p.1 0 ("Reported metrics: " ++ (p.2.metrics).getD ("None")))
          else none)).take 2 := rfl
  constructor
  · rw [he]; exact List.length_take_le _ _
  · rw [he, inspector_filterMap_eq]

/-! ## C5 -/

/-- C5 counterexample: at `chunk_size = 10`, closing the 21-character chunk
`"aaaaaaaaaaaaaaaaaaaa."` seeds the next chunk with the last
`int(10 * 0.3) = 3` characters `"aa."` of the running chunk, not with the
trailing 30% (`6` characters, `"aaaaa."`) of the just-closed chunk's
characters as the claim states; the state is reached by a real
`extract_chunks` run. -/
theorem overlap_seed_claim_counterexample :
    (c5State.current_size + ("b.").length > 10 ∧ c5State.current_chunk ≠ "")
    ∧ (chunkStep 10 c5State ("b.")).current_chunk = "aa. b."
    ∧ overlapSeedClaimC5 (pyStrip c5State.current_chunk) ("b.") = "aaaaa. b."
    ∧ (chunkStep 10 c5State ("b.")).current_chunk
        ≠ overlapSeedClaimC5 (pyStrip c5State.current_chunk) ("b.")
    ∧ extract_chunks ("aaaaaaaaaaaaaaaaaaaa. b.") 10
        = [⟨"aaaaaaaaaaaaaaaaaaaa.", 0, none, 0⟩, ⟨"aa. b.", 1, none, 21⟩] := by
  refine ⟨by decide, by decide, by decide, by decide, by decide⟩

/-- C5 amended: whenever the running chunk closes because the next sentence
would exceed `chunkSize`, the closed chunk is recorded stripped under the
current chunk id, and the next chunk is seeded with the trailing
`int(chunkSize * 0.3)` characters (IEEE-754 double arithmetic; the whole
unstripped running chunk when that count is 0) of the unstripped running
chunk, followed by a space and the triggering sentence. -/
theorem overlap_seed_amended (chunk_size : Nat) (st : ChunkState) (sentence : String)
    (h1 : st.current_size + sentence.length > chunk_size)
    (h2 : st.current_chunk ≠ "") :
    (chunkStep chunk_size st sentence).current_chunk
        = pyTailSlice st.current_chunk (int03 chunk_size) ++ " " ++ sentence
    ∧ (chunkStep chunk_size st sentence).chunks
        = st.chunks ++ [{ content := pyStrip st.current_chunk
                          chunk_id := st.chunk_id
                          page_num := none
                          start_char := (joinNl (st.chunks.map (·.content))).length }]
    ∧ (chunkStep chunk_size st sentence).chunk_id = st.chunk_id + 1 := by
  unfold chunkStep
  rw [if_pos ⟨h1, h2⟩]
  exact ⟨rfl, rfl, rfl⟩

theorem overlap_seed_amended_witness :
    (c5State.current_size + ("b.").length > 10 ∧ c5State.current_chunk ≠ "")
    ∧ ((chunkStep 10 c5State ("b.")).current_chunk
          = pyTailSlice c5State.current_chunk (int03 10) ++ " " ++ "b."
      ∧ (chunkStep 10 c5State ("b.")).chunks
          = c5State.chunks ++ [{ content := pyStrip c5State.current_chunk
                                 chunk_id := c5State.chunk_id
                                 page_num := none
                                 start_char := (joinNl (c5State.chunks.map (·.content))).length }]
      ∧ (chunkStep 10 c5State ("b.")).chunk_id = c5State.chunk_id + 1) :=
  ⟨⟨by decide, by decide⟩,
   overlap_seed_amended 10 c5State ("b.") (by decide) (by decide)⟩

/-! ## C7 -/

set_option maxRecDepth 8192 in
/-- C7 counterexample: the Synthesizer summary does not contain the
lowercase substring "hypothesis" (the template says "Hypothesis" with a
capital H). -/
theorem synthesizer_lowercase_counterexample :
    strHasSub (synthesizerAct oracleEnv ⟨0, 0⟩ ctx1 [] []).1.summary ("hypothesis") = false := by
  decide

set_option maxRecDepth 8192 in
/-- C7 amended: every Synthesizer summary literally contains "Hypothesis"
(capital H): its lowercasing contains "hypothesis", which is what the
case-insensitive extraction of `_extract_hypotheses` tests, so the message
is always picked up. -/
theorem synthesizer_hypothesis_amended (env : PyEnv) (s : EffState) (ctx : Context)
    (documents : List Document) (metadata : List (String × DocMeta)) :
    strHasSub (synthesizerAct env s ctx documents metadata).1.summary ("Hypothesis") = true
    ∧ strHasSub (pyLower (synthesizerAct env s ctx documents metadata).1.summary)
        ("hypothesis") = true
    ∧ extractHypotheses [(synthesizerAct env s ctx documents metadata).1]
        = [(synthesizerAct env s ctx documents metadata).1.summary] := by
  have h1 : strHasSub (synthesizerAct env s ctx documents metadata).1.summary
      ("Hypothesis") = true := by
    simp only [synthesizerAct, createMessage, pyNow, strHasSub, strData_append,
      List.append_assoc]
    apply hasSub_append_left
    apply hasSub_append_left
    decide
  have h2 : strHasSub (pyLower (synthesizerAct env s ctx documents metadata).1.summary)
      ("hypothesis") = true := by
    simp only [synthesizerAct, createMessage, pyNow, strHasSub, pyLower, strData_append,
      List.map_append, List.append_assoc]
    apply hasSub_append_left
    apply hasSub_append_left
    decide
  have hag : (synthesizerAct env s ctx documents metadata).1.agent = "Synthesizer" := rfl
  refine ⟨h1, h2, ?_⟩
  simp [extractHypotheses, List.filter_cons, hag, h2]

/-! ## C10 -/

/-- C10: the generation timestamp is read from the clock exactly once, at
construction; `generate` performs no clock access, so two calls on the same
instance with the same arguments return identical reports, the report
metadata carries the construction timestamp, and the markdown embeds the
very same timestamp line. -/
theorem report_timestamp_once (env : PyEnv) (s : EffState)
    (messages : List AgentMessage) (documents : List Document)
    (metadata : List (String × DocMeta)) :
    ((ReportGenerator.init env s).1).generated_at = env.now s.clock
    ∧ (ReportGenerator.init env s).2 = ⟨s.clock + 1, s.rand⟩
    ∧ ReportGenerator.generate (ReportGenerator.init env s).1 messages documents metadata
        = ReportGenerator.generate (ReportGenerator.init env s).1 messages documents metadata
    ∧ (ReportGenerator.generate (ReportGenerator.init env s).1 messages documents
        metadata).metadata.generated_at = env.now s.clock
    ∧ strHasSub (ReportGenerator.generate (ReportGenerator.init env s).1 messages documents
        metadata).markdown ("*Generated: " ++ env.now s.clock ++ "*\n\n") = true := by
  refine ⟨rfl, rfl, rfl, rfl, ?_⟩
  simp only [ReportGenerator.generate, ReportGenerator.init, pyNow, renderMarkdown,
    strHasSub, strData_append, List.append_assoc]
  apply hasSub_append_left
  exact hasSub_triple _ _ _ _

/-! ## C3 -/

/-- The invariant of the `extract_chunks` loop: recorded chunk ids are
`0, 1, …` and the pending id equals the number of recorded chunks. -/
def ChunkInv (st : ChunkState) : Prop :=
  st.chunks.map (·.chunk_id) = List.range st.chunks.length
  ∧ st.chunk_id = st.chunks.length

theorem chunkStep_inv (cs : Nat) (st : ChunkState) (s : String) (h : ChunkInv st) :
    ChunkInv (chunkStep cs st s) := by
  obtain ⟨h1, h2⟩ := h
  unfold chunkStep
  split
  · constructor
    · simp [List.range_succ, h1, h2]
    · simp [h2]
  · exact ⟨h1, h2⟩

theorem foldl_chunkStep_inv (cs : Nat) :
    ∀ (l : List String) (st : ChunkState), ChunkInv st →
      ChunkInv (l.foldl (chunkStep cs) st) := by
  intro l
  induction l with
  | nil => intro st h; exact h
  | cons s rest ih => intro st h; exact ih _ (chunkStep_inv cs st s h)

/-- C3: the chunk ids produced by `extract_chunks` are exactly
`0, 1, 2, …` in order with no gaps, for every text and chunk size, and the
empty string yields the empty chunk sequence. -/
theorem extract_chunks_ids_sequential (text : String) (chunk_size : Nat) :
    (extract_chunks text chunk_size).map (·.chunk_id)
      = List.range (extract_chunks text chunk_size).length
    ∧ extract_chunks ("") chunk_size = [] := by
  constructor
  · obtain ⟨h1, h2⟩ :=
      foldl_chunkStep_inv chunk_size (splitSentences text) ⟨[], "", 0, 0⟩ ⟨rfl, rfl⟩
    unfold extract_chunks
    dsimp only
    split
    · simp [List.range_succ, h1, h2]
    · exact h1
  · have hstep : chunkStep chunk_size ⟨[], "", 0, 0⟩ ("") = ⟨[], " ", 0, 0⟩ := by
      unfold chunkStep
      rw [if_neg]
      · rfl
      · rintro ⟨_, hne⟩; exact hne rfl
    have hstrip : pyStrip (" ") = "" := by decide
    show extract_chunks ("") chunk_size = []
    unfold extract_chunks
    have hs : splitSentences ("") = [""] := rfl
    rw [hs]
    simp [List.foldl, hstep, hstrip]

/-! ## C1 -/

theorem actOf_fields (a : Role) (env : PyEnv) (s : EffState) (ctx : Context)
    (documents : List Document) (metadata : List (String × DocMeta)) :
    (actOf a env s ctx documents metadata).1.agent = roleName a
    ∧ (actOf a env s ctx documents metadata).1.round = ctx.round := by
  cases a <;>
    first
    | exact ⟨rfl, rfl⟩
    | (cases documents <;> exact ⟨rfl, rfl⟩)

theorem runAgents_spec (env : PyEnv) (documents : List Document)
    (metadata : List (String × DocMeta)) (nr : Nat) (cs : String) (rnum : Nat) :
    ∀ (agents : List Role) (trace : List (Context × AgentMessage))
      (nodes : List GraphNode) (s : EffState),
    ((runAgents env documents metadata nr cs rnum agents trace nodes s).1.map
        (fun p => (p.2.agent, p.2.round))
      = trace.map (fun p => (p.2.agent, p.2.round))
          ++ agents.map (fun a => (roleName a, rnum)))
    ∧ ((runAgents env documents metadata nr cs rnum agents trace nodes s).2.1
      = nodes ++ agents.map (fun a => nodeOf a rnum))
    ∧ ((runAgents env documents metadata nr cs rnum agents trace nodes s).1.length
      = trace.length + agents.length)
    ∧ ((runAgents env documents metadata nr cs rnum agents trace nodes s).2.1.length
      = nodes.length + agents.length) := by
  intro agents
  induction agents with
  | nil => intro trace nodes s; simp [runAgents]
  | cons a rest ih =>
    intro trace nodes s
    simp only [runAgents]
    obtain ⟨ih1, ih2, ih3, ih4⟩ := ih (trace ++ [(⟨rnum, trace.map (·.2), nr, cs⟩,
        (actOf a env s ⟨rnum, trace.map (·.2), nr, cs⟩ documents metadata).1)])
      (nodes ++ [nodeOf a rnum])
      ((actOf a env s ⟨rnum, trace.map (·.2), nr, cs⟩ documents metadata).2)
    have hf := actOf_fields a env s ⟨rnum, trace.map (·.2), nr, cs⟩ documents metadata
    refine ⟨?_, ?_, ?_, ?_⟩
    · rw [ih1]
      simp [hf.1, hf.2, List.map_append]
    · rw [ih2]; simp
    · rw [ih3]; simp [List.length_append]; omega
    · rw [ih4]; simp [List.length_append]; omega

theorem runRounds_spec (env : PyEnv) (documents : List Document)
    (metadata : List (String × DocMeta)) (nr : Nat) (cs : String) (agents : List Role) :
    ∀ (fuel rnum : Nat) (trace : List (Context × AgentMessage))
      (nodes : List GraphNode) (s : EffState),
    ((runRounds env documents metadata nr cs agents rnum fuel trace nodes s).1.map
        (fun p => (p.2.agent, p.2.round))
      = trace.map (fun p => (p.2.agent, p.2.round))
          ++ (List.range' rnum fuel).flatMap (fun r => agents.map (fun a => (roleName a, r))))
    ∧ ((runRounds env documents metadata nr cs agents rnum fuel trace nodes s).2.1
      = nodes ++ (List.range' rnum fuel).flatMap (fun r => agents.map (fun a => nodeOf a r)))
    ∧ ((runRounds env documents metadata nr cs agents rnum fuel trace nodes s).1.length
      = trace.length + fuel * agents.length)
    ∧ ((runRounds env documents metadata nr cs agents rnum fuel trace nodes s).2.1.length
      = nodes.length + fuel * agents.length) := by
  intro fuel
  induction fuel with
  | zero => intro rnum trace nodes s; simp [runRounds]
  | succ fuel ih =>
    intro rnum trace nodes s
    simp only [runRounds]
    obtain ⟨ra1, ra2, ra3, ra4⟩ :=
      runAgents_spec env documents metadata nr cs rnum agents trace nodes s
    obtain ⟨ih1, ih2, ih3, ih4⟩ := ih (rnum + 1)
      (runAgents env documents metadata nr cs rnum agents trace nodes s).1
      (runAgents env documents metadata nr cs rnum agents trace nodes s).2.1
      (runAgents env documents metadata nr cs rnum agents trace nodes s).2.2
    refine ⟨?_, ?_, ?_, ?_⟩
    · rw [ih1, ra1, List.range'_succ, List.flatMap_cons, List.append_assoc]
    · rw [ih2, ra2, List.range'_succ, List.flatMap_cons, List.append_assoc]
    · rw [ih3, ra3, Nat.succ_mul]; omega
    · rw [ih4, ra4, Nat.succ_mul]; omega

theorem mkEdges_eq (msgs : List AgentMessage) :
    mkEdges msgs = (msgs.zip msgs.tail).map (fun p =>
      GraphEdge.mk (p.1.agent ++ "_r" ++ toString p.1.round)
        (p.2.agent ++ "_r" ++ toString p.2.round)
        ("Round " ++ toString p.1.round)) := by
  induction msgs with
  | nil => rfl
  | cons m1 rest ih =>
    cases rest with
    | nil => rfl
    | cons m2 r2 => simp [mkEdges, ih]

theorem mkEdges_length (msgs : List AgentMessage) :
    (mkEdges msgs).length = msgs.length - 1 := by
  rw [mkEdges_eq]
  simp [List.length_zip]

/-- C1: with `N` enabled agents and `R` rounds, `run` returns exactly `N*R`
messages in round-major, then configured-enable-order; each message carries
its agent's role name and its round; the graph has exactly `N*R` nodes, one
per (agent, round) pair in the same order, and `N*R - 1` edges (0 when
`N*R = 0`), the `i`-th edge connecting the `i`-th and `(i+1)`-th messages of
the flattened sequence and labeled with the source message's round. -/
theorem orchestrator_run_shape (config : List (String × Bool)) (num_rounds : Nat)
    (cstrict : String) (env : PyEnv) (documents : List Document)
    (metadata : List (String × DocMeta)) :
    ((AgentOrchestrator.run config num_rounds cstrict env documents metadata).1.length
        = (initAgents config).length * num_rounds)
    ∧ ((AgentOrchestrator.run config num_rounds cstrict env documents metadata).1.map
          (fun m => (m.agent, m.round))
        = (List.range' 1 num_rounds).flatMap
            (fun r => (initAgents config).map (fun a => (roleName a, r))))
    ∧ ((AgentOrchestrator.run config num_rounds cstrict env documents metadata).2.1
        = (List.range' 1 num_rounds).flatMap
            (fun r => (initAgents config).map (fun a => nodeOf a r)))
    ∧ ((AgentOrchestrator.run config num_rounds cstrict env documents metadata).2.1.length
        = (initAgents config).length * num_rounds)
    ∧ ((AgentOrchestrator.run config num_rounds cstrict env documents metadata).2.2.length
        = (initAgents config).length * num_rounds - 1)
    ∧ ((AgentOrchestrator.run config num_rounds cstrict env documents metadata).2.2
        = (((AgentOrchestrator.run config num_rounds cstrict env documents metadata).1.zip
              (AgentOrchestrator.run config num_rounds cstrict env documents
                metadata).1.tail).map
            (fun p => GraphEdge.mk (p.1.agent ++ "_r" ++ toString p.1.round)
              (p.2.agent ++ "_r" ++ toString p.2.round)
              ("Round " ++ toString p.1.round)))) := by
  obtain ⟨h1, h2, h3, h4⟩ := runRounds_spec env documents metadata num_rounds cstrict
    (initAgents config) num_rounds 1 [] [] ⟨0, 0⟩
  have hmsg : (AgentOrchestrator.run config num_rounds cstrict env documents metadata).1
      = (runRounds env documents metadata num_rounds cstrict (initAgents config)
          1 num_rounds [] [] ⟨0, 0⟩).1.map (·.2) := rfl
  have hnodes : (AgentOrchestrator.run config num_rounds cstrict env documents metadata).2.1
      = (runRounds env documents metadata num_rounds cstrict (initAgents config)
          1 num_rounds [] [] ⟨0, 0⟩).2.1 := rfl
  have hedges : (AgentOrchestrator.run config num_rounds cstrict env documents metadata).2.2
      = mkEdges ((AgentOrchestrator.run config num_rounds cstrict env documents
          metadata).1) := rfl
  have hlen : (AgentOrchestrator.run config num_rounds cstrict env documents
      metadata).1.length = (initAgents config).length * num_rounds := by
    rw [hmsg, List.length_map, h3]
    simp [Nat.mul_comm]
  refine ⟨hlen, ?_, ?_, ?_, ?_, ?_⟩
  · rw [hmsg, List.map_map]
    have hcomp : ((fun m : AgentMessage => (m.agent, m.round)) ∘
        (fun p : Context × AgentMessage => p.2))
        = fun p : Context × AgentMessage => (p.2.agent, p.2.round) := rfl
    rw [hcomp, h1]
    simp
  · rw [hnodes, h2]
    simp
  · rw [hnodes, h4]
    simp [Nat.mul_comm]
  · rw [hedges, mkEdges_length, hlen]
  · rw [hedges, mkEdges_eq]

/-! ## C2 -/

/-- Every recorded context saw exactly the messages emitted before it:
invocation `k` (0-based) received the first `k` messages of the final
history as its `prior_messages`. -/
def TraceOK (trace : List (Context × AgentMessage)) : Prop :=
  ∀ k (h : k < trace.length),
    (trace.get ⟨k, h⟩).1.prior_messages = (trace.map (·.2)).take k

theorem traceOK_nil : TraceOK [] := by
  intro k h
  exact absurd h (Nat.not_lt_zero k)

theorem traceOK_append (trace : List (Context × AgentMessage)) (ctx : Context)
    (m : AgentMessage) (hOK : TraceOK trace)
    (hctx : ctx.prior_messages = trace.map (·.2)) :
    TraceOK (trace ++ [(ctx, m)]) := by
  intro k h
  have hlen : k < trace.length + 1 := by simpa using h
  rcases Nat.lt_or_ge k trace.length with hk | hk
  · have hget : (trace ++ [(ctx, m)]).get ⟨k, h⟩ = trace.get ⟨k, hk⟩ :=
      List.getElem_append_left hk
    rw [hget, hOK k hk, List.map_append]
    rw [List.take_append_of_le_length (by simpa using le_of_lt hk)]
  · have hk2 : k = trace.length := by omega
    subst hk2
    have hget : (trace ++ [(ctx, m)]).get ⟨trace.length, h⟩ = (ctx, m) := by
      simp
    rw [hget, List.map_append]
    rw [List.take_append_of_le_length (by simp)]
    rw [show trace.length = (trace.map (fun x => x.2)).length from
      (List.length_map _ _).symm]
    rw [List.take_length]
    exact hctx

theorem runAgents_traceOK (env : PyEnv) (documents : List Document)
    (metadata : List (String × DocMeta)) (nr : Nat) (cs : String) (rnum : Nat) :
    ∀ (agents : List Role) (trace : List (Context × AgentMessage))
      (nodes : List GraphNode) (s : EffState), TraceOK trace →
      TraceOK (runAgents env documents metadata nr cs rnum agents trace nodes s).1 := by
  intro agents
  induction agents with
  | nil => intro trace nodes s h; simpa [runAgents] using h
  | cons a rest ih =>
    intro trace nodes s h
    simp only [runAgents]
    exact ih _ _ _ (traceOK_append trace _ _ h rfl)

theorem runRounds_traceOK (env : PyEnv) (documents : List Document)
    (metadata : List (String × DocMeta)) (nr : Nat) (cs : String) (agents : List Role) :
    ∀ (fuel rnum : Nat) (trace : List (Context × AgentMessage))
      (nodes : List GraphNode) (s : EffState), TraceOK trace →
      TraceOK (runRounds env documents metadata nr cs agents rnum fuel trace nodes s).1 := by
  intro fuel
  induction fuel with
  | zero => intro rnum trace nodes s h; simpa [runRounds] using h
  | succ fuel ih =>
    intro rnum trace nodes s h
    simp only [runRounds]
    exact ih _ _ _ _
      (runAgents_traceOK env documents metadata nr cs rnum agents trace nodes s h)

/-- C2: the history returned by `run` is the per-invocation trace's message
projection, and the `k`-th agent invocation overall (counting across rounds
in emission order, 0-based) observed as `prior_messages` exactly the first
`k` messages of the history — including same-round messages emitted by
earlier agents — so the `total_claims` count used by CitationGuard over
those prior messages is exactly `k`. -/
theorem orchestrator_history_visibility (config : List (String × Bool))
    (num_rounds : Nat) (cstrict : String) (env : PyEnv)
    (documents : List Document) (metadata : List (String × DocMeta)) :
    ((AgentOrchestrator.run config num_rounds cstrict env documents metadata).1
      = (runTrace config num_rounds cstrict env documents metadata).1.map (·.2))
    ∧ ∀ k (h : k < (runTrace config num_rounds cstrict env documents metadata).1.length),
      (((runTrace config num_rounds cstrict env documents metadata).1.get
            ⟨k, h⟩).1.prior_messages
          = ((runTrace config num_rounds cstrict env documents metadata).1.map
              (·.2)).take k)
      ∧ totalCount (((runTrace config num_rounds cstrict env documents
            metadata).1.get ⟨k, h⟩).1.prior_messages) = k := by
  refine ⟨rfl, ?_⟩
  intro k h
  have hOK : TraceOK (runTrace config num_rounds cstrict env documents metadata).1 :=
    runRounds_traceOK env documents metadata num_rounds cstrict
      (initAgents config) num_rounds 1 [] [] ⟨0, 0⟩ traceOK_nil
  have h1 := hOK k h
  refine ⟨h1, ?_⟩
  rw [totalCount, h1]
  simp only [List.length_take, List.length_map]
  omega

/-- The configuration used by the concrete C2 witness run. -/
def cfgW : List (String × Bool) := [("Researcher", true), ("CitationGuard", true)]

theorem orchestrator_history_visibility_witness :
    (1 < (runTrace cfgW 2 ("Moderate") oracleEnv [] []).1.length)
    ∧ ((((runTrace cfgW 2 ("Moderate") oracleEnv [] []).1.get ⟨1, by decide⟩).1.prior_messages
        = ((runTrace cfgW 2 ("Moderate") oracleEnv [] []).1.map (·.2)).take 1)
      ∧ totalCount (((runTrace cfgW 2 ("Moderate") oracleEnv [] []).1.get
            ⟨1, by decide⟩).1.prior_messages) = 1) :=
  ⟨by decide,
   (orchestrator_history_visibility cfgW 2 ("Moderate") oracleEnv [] []).2 1 (by decide)⟩
